import Mathlib

/-!
Verification development for the infinite-rs module/tag deserializer.

The Rust sources are shallowly embedded: machine integers become `Nat`/`Int`
(with explicit wrapping where u64 arithmetic may wrap), fallible operations
return `Except Err`, and the stateful `BufReader` becomes an explicit record
that carries the byte buffer, the cursor position, and a trace of seek/read
events (so that "no reads happen" and "reading starts at offset X" are
expressible).  Rust panics (out-of-bounds `Vec` indexing, slice range errors)
are modelled as the distinguished outcome `Err.panic`, separate from the
crate's own `Error` variants.
-/

namespace InfiniteRs

/-- Outcomes of fallible operations.  The named constructors mirror the
crate's error taxonomy in `common/errors.rs`; `panic` models a Rust panic
(e.g. out-of-bounds indexing), which is not an `Error` variant. -/
inductive Err where
  | readError
  | utf8ReadingError
  | tryFromIntError
  | recursionDepth
  | negativeBlockIndex (v : Int)
  | panic
  deriving Repr, DecidableEq

instance exceptDecEq {ε α : Type} [DecidableEq ε] [DecidableEq α] :
    DecidableEq (Except ε α) := fun x y =>
  match x, y with
  | .ok a, .ok b =>
      if h : a = b then .isTrue (by rw [h])
      else .isFalse (by intro hc; injection hc; exact h (by assumption))
  | .ok _, .error _ => .isFalse (by intro h; injection h)
  | .error _, .ok _ => .isFalse (by intro h; injection h)
  | .error e, .error f =>
      if h : e = f then .isTrue (by rw [h])
      else .isFalse (by intro hc; injection hc; exact h (by assumption))

/-- `usize::try_from` on a signed integer: errors on negative values
(`Error::TryFromIntError`). -/
def toUsize (i : Int) : Except Err Nat :=
  if i < 0 then .error .tryFromIntError else .ok i.toNat

/-- Rust slice indexing `l[a..b]`: panics when the range is out of bounds. -/
def sliceExc {α : Type} (l : List α) (a b : Nat) : Except Err (List α) :=
  if a ≤ b ∧ b ≤ l.length then .ok ((l.drop a).take (b - a)) else .error .panic

def U64 : Nat := 2 ^ 64

def U32 : Nat := 2 ^ 32

/-- Wrapping 64-bit addition (release-mode `u64` semantics). -/
def u64add (a b : Nat) : Nat := (a + b) % U64

/-- Wrapping 64-bit subtraction (release-mode `u64` semantics). -/
def u64sub (a b : Nat) : Nat := (a + U64 - b % U64) % U64

/-- Models `ModuleFile::read` lines 113-115 of `module/loader.rs`: given the
stream position `p` at the end of the block table, the cursor is moved to
`(p / 0x1000 + 1) * 0x1000` and that position is recorded as
`file_data_offset`. -/
def file_data_offset_align (p : Nat) : Nat := (p / 0x1000 + 1) * 0x1000

/-- Observable reader events: absolute seeks and byte reads. -/
inductive Ev where
  | seek (target : Nat)
  | read (count : Nat)
  deriving Repr, DecidableEq

/-- Explicit-state model of a `BufReader`: the underlying bytes, the cursor
position, and the trace of events performed so far (most recent last). -/
structure Reader where
  data : List Nat
  pos : Nat
  events : List Ev
  deriving Repr, DecidableEq

/-- `seek(SeekFrom::Start(t))`: moves the cursor; seeking past the end of a
file is not an error. -/
def Reader.seekStart (r : Reader) (t : Nat) : Reader :=
  { r with pos := t, events := r.events ++ [Ev.seek t] }

/-- `read_exact(buf)` of `n` bytes: fails with an I/O error when fewer than
`n` bytes remain. -/
def Reader.readExact (r : Reader) (n : Nat) : Except Err (List Nat × Reader) :=
  if r.pos + n ≤ r.data.length then
    .ok ((r.data.drop r.pos).take n,
         { r with pos := r.pos + n, events := r.events ++ [Ev.read n] })
  else .error .readError

/-- Decodes one UTF-8 scalar value, returning the character and the remaining
bytes; `none` on invalid input.  Mirrors the validation rules enforced by
`String::from_utf8`. -/
def utf8DecodeOne : List Nat → Option (Char × List Nat)
  | [] => none
  | b0 :: rest =>
    if b0 < 0x80 then some (Char.ofNat b0, rest)
    else if 0xC2 ≤ b0 ∧ b0 ≤ 0xDF then
      match rest with
      | b1 :: rest1 =>
        if 0x80 ≤ b1 ∧ b1 < 0xC0 then
          some (Char.ofNat ((b0 % 0x20) * 0x40 + b1 % 0x40), rest1)
        else none
      | [] => none
    else if 0xE0 ≤ b0 ∧ b0 ≤ 0xEF then
      match rest with
      | b1 :: b2 :: rest2 =>
        let lo1 : Nat := if b0 = 0xE0 then 0xA0 else 0x80
        let hi1 : Nat := if b0 = 0xED then 0xA0 else 0xC0
        if (lo1 ≤ b1 ∧ b1 < hi1) ∧ (0x80 ≤ b2 ∧ b2 < 0xC0) then
          some (Char.ofNat ((b0 % 0x10) * 0x1000 + (b1 % 0x40) * 0x40 + b2 % 0x40), rest2)
        else none
      | _ => none
    else if 0xF0 ≤ b0 ∧ b0 ≤ 0xF4 then
      match rest with
      | b1 :: b2 :: b3 :: rest3 =>
        let lo1 : Nat := if b0 = 0xF0 then 0x90 else 0x80
        let hi1 : Nat := if b0 = 0xF4 then 0x90 else 0xC0
        if (lo1 ≤ b1 ∧ b1 < hi1) ∧ (0x80 ≤ b2 ∧ b2 < 0xC0) ∧ (0x80 ≤ b3 ∧ b3 < 0xC0) then
          some (Char.ofNat ((b0 % 0x08) * 0x40000 + (b1 % 0x40) * 0x1000 +
                            (b2 % 0x40) * 0x40 + b3 % 0x40), rest3)
        else none
      | _ => none
    else none

/-- Decodes a whole byte list as UTF-8 (fuel-indexed; `utf8DecodeOne` always
consumes at least one byte, so fuel = length suffices). -/
def utf8DecodeAux : Nat → List Nat → Option (List Char)
  | _, [] => some []
  | 0, _ :: _ => none
  | fuel + 1, l =>
    match utf8DecodeOne l with
    | some (c, rest) => (utf8DecodeAux fuel rest).map (fun cs => c :: cs)
    | none => none

def utf8Decode (l : List Nat) : Option (List Char) := utf8DecodeAux l.length l

/-- Models `BufReaderExt::read_fixed_string` (`common/extensions.rs`) applied
to the exact bytes obtained by `read_exact`: a buffer equal to
`[0xFF, 0xFF, 0xFF, 0xFF]` yields the empty string; otherwise the bytes are
decoded as UTF-8 (`Utf8ReadingError` on failure). -/
def read_fixed_string (buffer : List Nat) : Except Err String :=
  if buffer = [0xFF, 0xFF, 0xFF, 0xFF] then .ok ""
  else
    match utf8Decode buffer with
    | some cs => .ok (String.mk cs)
    | none => .error .utf8ReadingError

/-- Models the `tag_group` step of `ModuleFileEntry::read`
(`module/file.rs` line 196): `read_fixed_string(4)?.chars().rev().collect()`,
applied to the four on-disk bytes. -/
def readTagGroup (bytes : List Nat) : Except Err String :=
  (read_fixed_string bytes).map (fun s => String.mk s.data.reverse)

/-- The fields of `ModuleFileEntry` consulted by `ModuleFile::get_tag_path`. -/
structure PathFileEntry where
  tagId : Int
  parentIndex : Int
  resourceIndex : Int
  resourceCount : Int
  tagName : String
  tagGroup : String
  deriving Repr, DecidableEq

/-- The tables of `ModuleFile` consulted by `get_tag_path`: the file-entry
table and the resource-index table (`u32` values). -/
structure PathModule where
  files : List PathFileEntry
  resourceIndices : List Nat
  deriving Repr

/-- The `child_index` computation of `get_tag_path` (`module/loader.rs` lines
152-158): the slice of resource indices is mapped through `&files[i]` and
counted with `take_while(|item| !ptr::eq(item, file))`.  Two `Vec` slots are
pointer-identical exactly when their indices coincide; the lazy iterator
indexes `files[i]` (panicking when out of bounds) only for elements up to and
including the first match. -/
def childIndexCount (filesLen : Nat) (index : Nat) : List Nat → Except Err Nat
  | [] => .ok 0
  | ri :: rest =>
    if ri < filesLen then
      if ri = index then .ok 0
      else (childIndexCount filesLen index rest).map (· + 1)
    else .error .panic

/-- Models `ModuleFile::get_tag_path` (`module/loader.rs` lines 144-174),
recursing on the remaining depth budget `gas = 4 - depth`: the source checks
`depth > 3` (error `RecursionDepth`) and recurses with `depth + 1`, which is
exactly `gas = 0` as the error case and `gas - 1` for the recursive calls. -/
def getTagPathAux (m : PathModule) : Nat → Nat → Except Err String
  | _, 0 => .error .recursionDepth
  | index, gas + 1 =>
    match m.files.get? index with
    | none => .error .panic
    | some file =>
      if file.tagId = -1 ∧ file.parentIndex ≠ -1 then do
        let pIdx ← toUsize file.parentIndex
        match m.files.get? pIdx with
        | none => .error .panic
        | some parent => do
          let ra ← toUsize parent.resourceIndex
          let rc ← toUsize parent.resourceCount
          let slice ← sliceExc m.resourceIndices ra (ra + rc)
          let childIndex ← childIndexCount m.files.length index slice
          let parentName ←
            if parent.tagName = "" then getTagPathAux m pIdx gas else pure ""
          if parent.tagId = -1 then do
            let parentName ← getTagPathAux m pIdx gas
            pure (parentName ++ "[" ++ toString childIndex ++ ":block]")
          else
            pure (parentName ++ "[" ++ toString childIndex ++ ":resource]")
      else
        pure (file.tagGroup ++ "/" ++ toString file.tagId ++ "." ++ file.tagGroup)

/-- `ModuleFile::get_tag_path(index, depth)`. -/
def get_tag_path (m : PathModule) (index depth : Nat) : Except Err String :=
  getTagPathAux m index (4 - depth)

/-- Concrete file table for the path-synthesis scenario: index 0 holds tag C
(`tag_id = 0xABCD`, group `"bitm"`, `resource_index = 5`,
`resource_count = 2`), index 1 holds A (`tag_id = -1`, parent B), index 2
holds B (`tag_id = -1`, parent C); `resource_indices[5..7] = [1, 2]`
(the indices of A and B). -/
def c1Module : PathModule :=
  { files :=
      [ { tagId := 0xABCD, parentIndex := -1, resourceIndex := 5,
          resourceCount := 2, tagName := "", tagGroup := "bitm" },
        { tagId := -1, parentIndex := 2, resourceIndex := 0,
          resourceCount := 0, tagName := "", tagGroup := "" },
        { tagId := -1, parentIndex := 0, resourceIndex := 0,
          resourceCount := 0, tagName := "", tagGroup := "" } ],
    resourceIndices := [0, 0, 0, 0, 0, 1, 2] }

/-- `ModuleVersion` (`module/header.rs`), a fieldless enum with
`repr(i32)` values 48, 51, 52, 53; the derived ordering follows declaration
order, which coincides with the numeric values. -/
inductive ModuleVersion where
  | flight1
  | release
  | campaignFlight
  | season3
  deriving Repr, DecidableEq

def ModuleVersion.toVal : ModuleVersion → Int
  | .flight1 => 48
  | .release => 51
  | .campaignFlight => 52
  | .season3 => 53

/-- The derived `PartialOrd`/`Ord` comparison `version <= CampaignFlight`. -/
def ModuleVersion.leCampaign (v : ModuleVersion) : Bool := v.toVal ≤ 52

/-- `ModuleBlockEntry` (`module/block.rs`). -/
structure ModuleBlockEntry where
  compressedOffset : Nat
  compressedSize : Nat
  decompressedOffset : Nat
  decompressedSize : Nat
  isCompressed : Bool
  deriving Repr, DecidableEq

/-- The fields of `ModuleHeader` consulted by `ModuleFile::read_tag`. -/
structure ModuleHeader where
  version : ModuleVersion
  hd1Delta : Nat
  deriving Repr, DecidableEq

/-- `ModuleFileEntry` (`module/file.rs`), parameterized by the type `τ` of
parsed tag info (the `TagFile` produced by `tag/loader.rs`, which the claims
treat abstractly).  `flags` is the `FileEntryFlags` byte (bit 0 compressed,
bit 1 has-blocks, bit 2 raw-file); `dataOffsetFlags` is the 16-bit
`DataOffsetType` set (bit 0 `USE_HD1`, bit 1 `DEBUG`). -/
structure ModuleFileEntry (τ : Type) where
  flags : Nat
  blockCount : Nat
  blockIndex : Int
  resourceIndex : Int
  tagGroup : String
  dataOffset : Nat
  dataOffsetFlags : Nat
  totalCompressedSize : Nat
  totalUncompressedSize : Nat
  tagId : Int
  nameOffset : Nat
  parentIndex : Int
  resourceCount : Int
  dataStream : Option (List Nat)
  tagInfo : Option τ
  isLoaded : Bool
  tagName : String
  deriving Repr, DecidableEq

/-- Writes `src` over `data[start .. start + src.length]` (both bounds
already checked by the caller, as Rust slice assignment panics otherwise). -/
def listWriteRange (data : List Nat) (start : Nat) (src : List Nat) : List Nat :=
  data.take start ++ src ++ data.drop (start + src.length)

/-- `read_uncompressed_block` (`module/file.rs` lines 427-437): reads
`compressed_size` bytes directly into
`data[decompressed_offset .. decompressed_offset + compressed_size]`. -/
def read_uncompressed_block (block : ModuleBlockEntry) (data : List Nat)
    (reader : Reader) : Except Err (List Nat × Reader) := do
  if block.decompressedOffset + block.compressedSize ≤ data.length then
    let (buf, reader) ← reader.readExact block.compressedSize
    .ok (listWriteRange data block.decompressedOffset buf, reader)
  else .error .panic

/-- `read_compressed_block` (`module/file.rs` lines 456-475): reads
`compressed_size` bytes, decompresses them (the Kraken decompressor is an
opaque FFI, abstracted as the parameter `kraken`), and copies the
`decompressed_size`-byte result into the output range. -/
def read_compressed_block (kraken : List Nat → Nat → Except Err (List Nat))
    (block : ModuleBlockEntry) (data : List Nat) (reader : Reader) :
    Except Err (List Nat × Reader) := do
  let (compressed, reader) ← reader.readExact block.compressedSize
  let decompressed ← kraken compressed block.decompressedSize
  if decompressed.length = block.decompressedSize ∧
      block.decompressedOffset + block.decompressedSize ≤ data.length then
    .ok (listWriteRange data block.decompressedOffset decompressed, reader)
  else .error .panic

/-- The per-block loop body of `read_multiple_blocks`: seek to
`initial_block_offset + compressed_offset`, then copy or decompress. -/
def processBlocks (kraken : List Nat → Nat → Except Err (List Nat)) :
    List ModuleBlockEntry → Nat → List Nat → Reader → Except Err (List Nat × Reader)
  | [], _, data, reader => .ok (data, reader)
  | b :: rest, initial, data, reader => do
    let reader := reader.seekStart (initial + b.compressedOffset)
    let (data, reader) ←
      if b.isCompressed then read_compressed_block kraken b data reader
      else read_uncompressed_block b data reader
    processBlocks kraken rest initial data reader

/-- `ModuleFileEntry::read_multiple_blocks` (`module/file.rs` lines 308-334):
fails with `NegativeBlockIndex` when `block_index < 0`, seeks to
`file_offset`, then iterates the `block_count` block entries starting at
`block_index` (slicing the block table panics when out of range). -/
def read_multiple_blocks (kraken : List Nat → Nat → Except Err (List Nat))
    (entry : ModuleFileEntry τ) (blocks : List ModuleBlockEntry)
    (fileOffset : Nat) (data : List Nat) (reader : Reader) :
    Except Err (List Nat × Reader) := do
  if entry.blockIndex < 0 then .error (.negativeBlockIndex entry.blockIndex)
  else
    let first := entry.blockIndex.toNat
    let reader := reader.seekStart fileOffset
    let initial := reader.pos
    let bs ← sliceExc blocks first (first + entry.blockCount)
    processBlocks kraken bs initial data reader

/-- `read_single_block` (`module/file.rs` lines 496-513): seek to
`file_offset`, read `total_compressed_size` bytes, then copy verbatim when
compressed and uncompressed sizes agree or decompress otherwise. -/
def read_single_block (kraken : List Nat → Nat → Except Err (List Nat))
    (entry : ModuleFileEntry τ) (fileOffset : Nat) (data : List Nat)
    (reader : Reader) : Except Err (List Nat × Reader) := do
  let reader := reader.seekStart fileOffset
  let (block, reader) ← reader.readExact entry.totalCompressedSize
  if entry.totalCompressedSize = entry.totalUncompressedSize then
    if data.length = block.length then .ok (block, reader) else .error .panic
  else do
    let out ← kraken block entry.totalUncompressedSize
    .ok (out, reader)

/-- The source-relative file offset computed by `ModuleFileEntry::read_tag`
(`module/file.rs` lines 255-259): `data_offset - base` when reading from the
HD1 archive, `base + data_offset` otherwise (wrapping `u64` arithmetic). -/
def entryFileOffset (base entryDataOffset : Nat) (usesHd1 : Bool) : Nat :=
  if usesHd1 then u64sub entryDataOffset base else u64add base entryDataOffset

/-- The final phase of `ModuleFileEntry::read_tag` (`module/file.rs` lines
270-286), after the payload `data` has been assembled: store it in
`data_stream`, parse the tag header when the `RAW_FILE` flag (bit 2) is
clear (`"psod"` entries force `Season3` parsing), and set `is_loaded`. -/
def entryFinish (parseTag : List Nat → ModuleVersion → Except Err τ)
    (entry : ModuleFileEntry τ) (version : ModuleVersion) (data : List Nat)
    (reader : Reader) : Except Err (ModuleFileEntry τ × Reader) := do
  let entry := { entry with dataStream := some data }
  let entry ←
    if ¬ entry.flags.testBit 2 then do
      let tf ←
        if entry.tagGroup = "psod" then parseTag data .season3
        else parseTag data version
      pure { entry with tagInfo := some tf }
    else pure entry
  pure ({ entry with isLoaded := true }, reader)

/-- `ModuleFileEntry::read_tag` (`module/file.rs` lines 244-287).  Returns
immediately when `is_loaded`; otherwise computes the file offset, rewinds,
assembles the payload (single block or multiple blocks), and finishes via
`entryFinish` (the tag parser of `tag/loader.rs` is abstracted as
`parseTag`). -/
def ModuleFileEntry.read_tag (kraken : List Nat → Nat → Except Err (List Nat))
    (parseTag : List Nat → ModuleVersion → Except Err τ)
    (entry : ModuleFileEntry τ) (reader : Reader) (dataOffset : Nat)
    (blocks : List ModuleBlockEntry) (version : ModuleVersion)
    (usesHd1 : Bool) : Except Err (ModuleFileEntry τ × Reader) :=
  if entry.isLoaded then .ok (entry, reader)
  else do
    let fileOffset := entryFileOffset dataOffset entry.dataOffset usesHd1
    let data0 := List.replicate entry.totalUncompressedSize 0
    let reader := reader.seekStart 0
    let (data, reader) ←
      if entry.blockCount ≠ 0 then
        read_multiple_blocks kraken entry blocks fileOffset data0 reader
      else
        read_single_block kraken entry fileOffset data0 reader
    entryFinish parseTag entry version data reader

/-- The fields of `ModuleFile` (`module/loader.rs`) consulted by
`read_tag`. -/
structure ModuleFile (τ : Type) where
  header : ModuleHeader
  files : List (ModuleFileEntry τ)
  blocks : List ModuleBlockEntry
  fileDataOffset : Nat
  fileHandle : Option Reader
  hd1File : Option Reader
  deriving Repr, DecidableEq

/-- `ModuleFile::read_tag` (`module/loader.rs` lines 188-221).  Indexes
`files` without a bounds check (a panic when out of range); returns
`Ok(None)` for `DEBUG`-flagged entries and for `USE_HD1`-flagged entries
without an opened HD1 archive; for versions up to `CampaignFlight` the
`hd1_delta` base is doubled before dispatching to the entry loader. -/
def ModuleFile.read_tag (kraken : List Nat → Nat → Except Err (List Nat))
    (parseTag : List Nat → ModuleVersion → Except Err τ)
    (m : ModuleFile τ) (index : Nat) :
    Except Err (Option (ModuleFileEntry τ) × ModuleFile τ) :=
  match m.files.get? index with
  | none => .error .panic
  | some file =>
    if file.dataOffsetFlags.testBit 1 then .ok (none, m)
    else
      let offset := m.header.hd1Delta
      if file.dataOffsetFlags.testBit 0 then
        match m.hd1File with
        | some hd1 =>
          let offset :=
            if m.header.version.leCampaign then u64add offset m.header.hd1Delta
            else offset
          do
            let (file, hd1) ←
              file.read_tag kraken parseTag hd1 offset m.blocks m.header.version true
            .ok (some file, { m with hd1File := some hd1, files := m.files.set index file })
        | none => .ok (none, m)
      else
        match m.fileHandle with
        | some fh => do
          let (file, fh) ←
            file.read_tag kraken parseTag fh m.fileDataOffset m.blocks
              m.header.version false
          .ok (some file, { m with fileHandle := some fh, files := m.files.set index file })
        | none => .ok (some file, m)

/-- `TagSectionType` (`tag/datablock.rs`). -/
inductive TagSectionType where
  | header
  | tagData
  | resourceData
  | actualResource
  deriving Repr, DecidableEq

/-- `TagDataBlock` (`tag/datablock.rs`); the `padding` field is never
consulted by the loaders. -/
structure TagDataBlock where
  entry_size : Nat
  section_type : TagSectionType
  offset : Nat
  deriving Repr, DecidableEq

/-- `TagStructType` (`tag/structure.rs`). -/
inductive TagStructType where
  | mainStruct
  | tagBlock
  | resource
  | custom
  | literal
  deriving Repr, DecidableEq

/-- `TagStruct` (`tag/structure.rs`); `guid` and `location` are never
consulted by the loaders. -/
structure TagStruct where
  struct_type : TagStructType
  target_index : Int
  field_block : Int
  field_offset : Nat
  deriving Repr, DecidableEq

/-- Modelled from the spec: the data-reference record of `tag/loader.rs`
(not among the provided sources).  Section 3 of the spec: a `DataReference`
pairs a site within a parent datablock (`field_block`, `field_offset`) with a
`target_index` into the datablock table. -/
structure TagDataReference where
  field_block : Int
  field_offset : Nat
  target_index : Int
  deriving Repr, DecidableEq

/-- The tag-header sizes consulted by `TagDataBlock::get_offset`
(`tag/header.rs`: `data_size`, `resource_size`). -/
structure TagHeaderSizes where
  data_size : Nat
  resource_size : Nat
  deriving Repr, DecidableEq

/-- Modelled from the spec: the `TagFile` container of `tag/loader.rs` (not
among the provided sources).  Section 3 of the spec: it owns a header and
ordered sequences of datablock definitions, struct definitions and
data-reference definitions; only the tables consulted by the embedded
loaders are modelled. -/
structure TagFile where
  header : TagHeaderSizes
  datablock_definitions : List TagDataBlock
  struct_definitions : List TagStruct
  data_references : List TagDataReference
  deriving Repr, DecidableEq

/-- `TagDataBlock::get_offset` (`tag/datablock.rs` lines 51-61):
`section_base + offset` with base 0 for `Header`/`TagData`, `data_size` for
`ResourceData`, `data_size + resource_size` for `ActualResource`. -/
def TagDataBlock.get_offset (b : TagDataBlock) (tagInfo : TagFile) : Nat :=
  (match b.section_type with
   | .tagData | .header => 0
   | .resourceData => tagInfo.header.data_size
   | .actualResource => tagInfo.header.data_size + tagInfo.header.resource_size)
  + b.offset

/-- In-memory state of a `FieldBlock<T>` (`tag/types/common_types.rs`),
with the element type kept abstract. -/
structure FieldBlockState (T : Type) where
  field_offset : Nat
  type_info : Nat
  unknown : Nat
  size : Nat
  elements : List T
  deriving Repr, DecidableEq

/-- The `TagStructure` capability set (`module/file.rs` trait and the code
generated by `infinite-rs-derive`) for an element type `T`: default value,
declared record size, `read`, and `load_field_blocks`. -/
structure TagStructureOps (T : Type) where
  default : T
  size : Nat
  read : T → Reader → Except Err (T × Reader)
  load_field_blocks : T → Int → Nat → Nat → Reader → TagFile → Except Err (T × Reader)

/-- The element-reading loop of `FieldBlock::load_blocks` (lines 785-789):
`size` repetitions of `T::default()` followed by `object.read(reader)`. -/
def readElems (ops : TagStructureOps T) : Nat → Reader → Except Err (List T × Reader)
  | 0, reader => .ok ([], reader)
  | n + 1, reader => do
    let (e, reader) ← ops.read ops.default reader
    let (es, reader) ← readElems ops n reader
    .ok (e :: es, reader)

/-- The children-loading loop of `FieldBlock::load_blocks` (lines 792-801):
each element at position `idx` recurses with `adjusted_base = size * idx`. -/
def loadChildren (ops : TagStructureOps T) (target : Int) (elemSize : Nat)
    (tagFile : TagFile) : Nat → List T → Reader → Except Err (List T × Reader)
  | _, [], reader => .ok ([], reader)
  | idx, e :: es, reader => do
    let (e, reader) ← ops.load_field_blocks e target idx (elemSize * idx) reader tagFile
    let (es, reader) ← loadChildren ops target elemSize tagFile (idx + 1) es reader
    .ok (e :: es, reader)

/-- `FieldBlock::load_blocks` (`tag/types/common_types.rs` lines 741-805).
Empty blocks return immediately; otherwise the struct definition with
matching `field_block`, `field_offset` and non-(-1) `target_index` is looked
up, the target datablock resolved (silently returning when absent; a
negative index other than -1 casts to a huge `usize`, so `get` also returns
`None`), the payload offset computed — compensated, when the target lies in
`ResourceData`, by the `entry_size` sum of all `TagData` datablocks
(`sum::<u32>()`, wrapping at `2^32`, then added with wrapping `u64`
addition) — and the elements and their children are read. -/
def FieldBlock.load_blocks (ops : TagStructureOps T) (self : FieldBlockState T)
    (current_block : Int) (collection_offset : Nat) (reader : Reader)
    (tag_file : TagFile) : Except Err (FieldBlockState T × Reader) :=
  if self.size = 0 then .ok (self, reader)
  else
    let structs := tag_file.struct_definitions
    let blocks := tag_file.datablock_definitions
    let block_root := structs.find? fun s =>
      s.field_block = current_block ∧ s.field_offset = collection_offset ∧
        s.target_index ≠ -1
    match block_root with
    | none => .ok (self, reader)
    | some block_struct =>
      match (if block_struct.target_index < 0 then none
             else blocks.get? block_struct.target_index.toNat) with
      | none => .ok (self, reader)
      | some block =>
        let tagdata_size :=
          ((blocks.filter fun x => x.section_type = .tagData).map
            (fun x => x.entry_size)).sum % U32
        let offset :=
          if block.section_type = .resourceData then u64add block.offset tagdata_size
          else block.offset
        let elemSize := ops.size
        let reader := reader.seekStart offset
        do
          let (elems, reader) ← readElems ops self.size reader
          let allElems := self.elements ++ elems
          let (allElems, reader) ←
            loadChildren ops block_struct.target_index elemSize tag_file 0
              allElems reader
          .ok ({ self with elements := allElems }, reader)

/-- In-memory state of a `FieldData` (`tag/types/common_types.rs`). -/
structure FieldDataState where
  data_pointer : Nat
  type_info : Nat
  unknown : Nat
  size : Nat
  data : List Nat
  deriving Repr, DecidableEq

/-- `FieldData::load_data` (`tag/types/common_types.rs` lines 847-877):
filters the data references by `field_block == parent_index`, selects the
`parent_struct_index`-th such reference, and when its `target_index` is not
-1 resolves the target datablock, seeks to its section-aware offset, reads
`size` bytes into the field's buffer and restores the reader position. -/
def FieldData.load_data (self : FieldDataState) (reader : Reader)
    (parent_index : Int) (parent_struct_index : Nat) (tag_file : TagFile) :
    Except Err (FieldDataState × Reader) :=
  let refs := tag_file.data_references.filter fun x => x.field_block = parent_index
  match refs.get? parent_struct_index with
  | none => .ok (self, reader)
  | some reference =>
    if reference.target_index ≠ -1 then do
      let ti ← toUsize reference.target_index
      let datablock := tag_file.datablock_definitions.get? ti
      let position := reader.pos
      match datablock with
      | some datablock => do
        let reader := reader.seekStart (datablock.get_offset tag_file)
        let (buf, reader) ← reader.readExact self.size
        let reader := reader.seekStart position
        .ok ({ self with data := buf }, reader)
      | none => .ok (self, reader)
    else .ok (self, reader)

/-- A user layout whose main struct declares two `FieldData` fields, at
offsets 0x294 and 0x2AC in declaration order (scenario 6 of the spec). -/
structure TwoFieldDataStruct where
  f1 : FieldDataState
  f2 : FieldDataState
  deriving Repr, DecidableEq

/-- The `load_field_blocks` generated for `TwoFieldDataStruct` by
`infinite-rs-derive::generate_field_blocks` (lines 111-115): each `FieldData`
field emits `self.field.load_data(reader, source_index, parent_index,
tag_file)?` in declaration order — both calls receive the same
`parent_index`. -/
def TwoFieldDataStruct.load_field_blocks (self : TwoFieldDataStruct)
    (source_index : Int) (parent_index : Nat) (reader : Reader)
    (tag_file : TagFile) : Except Err (TwoFieldDataStruct × Reader) := do
  let (f1, reader) ← FieldData.load_data self.f1 reader source_index parent_index tag_file
  let (f2, reader) ← FieldData.load_data self.f2 reader source_index parent_index tag_file
  .ok ({ self with f1 := f1, f2 := f2 }, reader)

/-- An ops record only ever appends to the reader's event trace (true of all
code generated by `infinite-rs-derive`, whose readers and loaders only seek
and read). -/
def OpsAppendEvents (ops : TagStructureOps T) : Prop :=
  (∀ x r y r', ops.read x r = .ok (y, r') → ∃ t, r'.events = r.events ++ t) ∧
  (∀ x a b c r tf y r',
      ops.load_field_blocks x a b c r tf = .ok (y, r') →
        ∃ t, r'.events = r.events ++ t)

/-- A minimal element type for exercising the block loader: reads nothing
and has no nested fields. -/
def unitOps : TagStructureOps Unit :=
  { default := (), size := 4,
    read := fun _ r => .ok ((), r),
    load_field_blocks := fun _ _ _ _ r _ => .ok ((), r) }

/-- A reader over sixty distinguishable bytes. -/
def c2Reader : Reader := { data := List.range 60, pos := 0, events := [] }

/-- Scenario-6 fixture: two `TagData` datablocks (offsets 0 and 40) and two
data references with `field_block = 0` (the main struct's target index),
pointing at datablocks 0 and 1 respectively. -/
def c2TagFile : TagFile :=
  { header := { data_size := 100, resource_size := 0 },
    datablock_definitions :=
      [ { entry_size := 16, section_type := .tagData, offset := 0 },
        { entry_size := 16, section_type := .tagData, offset := 40 } ],
    struct_definitions := [],
    data_references :=
      [ { field_block := 0, field_offset := 0x294, target_index := 0 },
        { field_block := 0, field_offset := 0x2AC, target_index := 1 } ] }

/-- The two `FieldData` fields after `read`, each expecting 4 bytes. -/
def c2Init : TwoFieldDataStruct :=
  { f1 := { data_pointer := 0, type_info := 0, unknown := 0, size := 4, data := [] },
    f2 := { data_pointer := 0, type_info := 0, unknown := 0, size := 4, data := [] } }

/-- Fixture for the block loader: one `TagBlock` struct definition at
`field_block = 0`, `field_offset = 0x2C`, targeting datablock 0 which lies
in `ResourceData` at offset 8; a second datablock of section `TagData` with
`entry_size = 16` contributes to the compensation sum. -/
def c4TagFile : TagFile :=
  { header := { data_size := 0, resource_size := 0 },
    datablock_definitions :=
      [ { entry_size := 0, section_type := .resourceData, offset := 8 },
        { entry_size := 16, section_type := .tagData, offset := 0 } ],
    struct_definitions :=
      [ { struct_type := .tagBlock, target_index := 0, field_block := 0,
          field_offset := 0x2C } ],
    data_references := [] }

/-- A block-field state announcing two elements. -/
def c4State : FieldBlockState Unit :=
  { field_offset := 0, type_info := 0, unknown := 0, size := 2, elements := [] }

def emptyReader : Reader := { data := [], pos := 0, events := [] }

/-- A block-field state with decoded size 0. -/
def c8State : FieldBlockState Unit :=
  { field_offset := 0, type_info := 0, unknown := 0, size := 0, elements := [] }

/-- A decompressor stand-in for witnesses: produces the expected number of
zero bytes. -/
def witKraken : List Nat → Nat → Except Err (List Nat) :=
  fun _ n => .ok (List.replicate n 0)

/-- A tag-parser stand-in for witnesses. -/
def witParse : List Nat → ModuleVersion → Except Err Unit := fun _ _ => .ok ()

def witReader : Reader := { data := List.range 16, pos := 0, events := [] }

/-- A raw-file entry (no tag header) with a 4-byte uncompressed payload at
`data_offset = 8`, stored monolithically (`block_count = 0`). -/
def witEntry : ModuleFileEntry Unit :=
  { flags := 4, blockCount := 0, blockIndex := 0, resourceIndex := 0,
    tagGroup := "", dataOffset := 8, dataOffsetFlags := 0,
    totalCompressedSize := 4, totalUncompressedSize := 4, tagId := 0,
    nameOffset := 0, parentIndex := -1, resourceCount := 0,
    dataStream := none, tagInfo := none, isLoaded := false, tagName := "" }

/-- A module whose single entry reads from the primary archive. -/
def witModule : ModuleFile Unit :=
  { header := { version := .season3, hd1Delta := 0 }, files := [witEntry],
    blocks := [], fileDataOffset := 0, fileHandle := some witReader,
    hd1File := none }

/-- The entry of `witModule` flagged `USE_HD1`. -/
def witEntryHd1 : ModuleFileEntry Unit := { witEntry with dataOffsetFlags := 1 }

/-- A module with `hd1_delta = 2` and an opened HD1 side-archive. -/
def witModuleHd1 : ModuleFile Unit :=
  { header := { version := .season3, hd1Delta := 2 }, files := [witEntryHd1],
    blocks := [], fileDataOffset := 0, fileHandle := some witReader,
    hd1File := some witReader }

/-- The entry of `witModule` already materialized. -/
def witEntryLoaded : ModuleFileEntry Unit := { witEntry with isLoaded := true }

/-- A module whose single entry is already loaded (HD1 also available). -/
def witModuleLoaded : ModuleFile Unit :=
  { header := { version := .season3, hd1Delta := 0 },
    files := [witEntryLoaded], blocks := [], fileDataOffset := 0,
    fileHandle := some witReader, hd1File := some witReader }

/-- The entry of `witModule` flagged `DEBUG`. -/
def witEntryDebug : ModuleFileEntry Unit := { witEntry with dataOffsetFlags := 2 }

/-- A module whose single entry is `DEBUG`-flagged. -/
def witModuleDebug : ModuleFile Unit :=
  { header := { version := .season3, hd1Delta := 0 }, files := [witEntryDebug],
    blocks := [], fileDataOffset := 0, fileHandle := some witReader,
    hd1File := none }

/-- The entry produced by loading `witModuleHd1`'s single entry. -/
def c3OutEntry : ModuleFileEntry Unit :=
  { witEntryHd1 with dataStream := some [6, 7, 8, 9], isLoaded := true }

/-- The module state after `read_tag` on `witModuleHd1`. -/
def c3OutModule : ModuleFile Unit :=
  { witModuleHd1 with
    files := [c3OutEntry],
    hd1File := some { data := List.range 16, pos := 10,
                      events := [Ev.seek 0, Ev.seek 6, Ev.read 4] } }

/-- The block-field state produced by `load_blocks` on the C4 fixture. -/
def c4OutState : FieldBlockState Unit := { c4State with elements := [(), ()] }

/-- The reader state produced by `load_blocks` on the C4 fixture. -/
def c4OutReader : Reader := { data := [], pos := 24, events := [Ev.seek 24] }

/-! ### Theorems -/

/-- Claim C1, counterexample: on the scenario's file table (`c1Module`,
where A is index 1, B index 2, C index 0), `get_tag_path` does **not**
return `"bitm/43981.bitm[0:block][0:resource]"`. -/
theorem c1_counterexample :
    get_tag_path c1Module 1 0 ≠
      Except.ok "bitm/43981.bitm[0:block][0:resource]" := by decide

/-- Claim C1 (amended): on the scenario's file table, `get_tag_path` applied
to the index of A returns `"bitm/43981.bitm[1:resource][0:block]"`: the
suffix for the innermost ancestor (B, at position 1 of C's resource list,
rendered `:resource` because C is a real tag) comes first, and A's own
suffix (position 0 of B's — empty — resource list, rendered `:block` because
B has `tag_id = -1`) comes last. -/
theorem c1_path_synthesis :
    get_tag_path c1Module 1 0 =
      Except.ok "bitm/43981.bitm[1:resource][0:block]" := by decide

/-- Claim C5, counterexample: at an end-of-block-table position that is
already a multiple of 4096, the recorded `file_data_offset` is 8192, not the
smallest 4096-multiple ≥ 4096 (which is 4096 itself). -/
theorem c5_counterexample :
    file_data_offset_align 4096 = 8192 ∧ file_data_offset_align 4096 ≠ 4096 := by
  decide

/-- Claim C5 (amended): for every end-of-block-table position `p`,
`file_data_offset` is the smallest multiple of 4096 that is **strictly
greater** than `p` (so a `p` already aligned is advanced by a full page). -/
theorem c5_alignment (p : Nat) :
    4096 ∣ file_data_offset_align p ∧ p < file_data_offset_align p ∧
      ∀ q : Nat, 4096 ∣ q → p < q → file_data_offset_align p ≤ q := by
  unfold file_data_offset_align
  refine ⟨⟨p / 4096 + 1, by ring⟩, by omega, ?_⟩
  rintro q ⟨k, rfl⟩ hlt
  have : p / 4096 < k := by omega
  calc (p / 4096 + 1) * 4096 ≤ k * 4096 := by omega
    _ = 4096 * k := by ring

/-- Witness for C5: the amended property evaluated at position 5000 and
candidate multiple 8192. -/
theorem c5_witness :
    4096 ∣ file_data_offset_align 5000 ∧ 5000 < file_data_offset_align 5000 ∧
      file_data_offset_align 5000 ≤ 8192 :=
  ⟨(c5_alignment 5000).1, (c5_alignment 5000).2.1,
   (c5_alignment 5000).2.2 8192 (by decide) (by decide)⟩

/-- Claim C8: a `FieldBlock` whose decoded `size` is 0 makes `load_blocks`
return at once — the state (and in particular the empty `elements` vector)
and the reader (position and event trace) are both returned unchanged, and
no element `read` or recursive `load_field_blocks` is invoked (the result
does not depend on `ops` at all). -/
theorem c8_empty_block_no_effect {T : Type} (ops : TagStructureOps T)
    (self : FieldBlockState T) (cb : Int) (co : Nat) (r : Reader)
    (tf : TagFile) (h : self.size = 0) :
    FieldBlock.load_blocks ops self cb co r tf = .ok (self, r) := by
  unfold FieldBlock.load_blocks
  rw [h]
  simp

/-- Witness for C8: the empty-block fast path on a concrete state. -/
theorem c8_witness :
    c8State.size = 0 ∧
      FieldBlock.load_blocks unitOps c8State 0 44 emptyReader c4TagFile =
        .ok (c8State, emptyReader) :=
  ⟨rfl, c8_empty_block_no_effect unitOps c8State 0 44 emptyReader c4TagFile rfl⟩

/-- Claim C10: `ModuleFile::read_tag` indexes the `files` vector without a
bounds check, so any index at or past `files.len()` panics (modelled as the
distinguished `Err.panic`, not one of the crate's `Error` variants). -/
theorem c10_oob_panics {τ : Type} (kraken : List Nat → Nat → Except Err (List Nat))
    (parseTag : List Nat → ModuleVersion → Except Err τ) (m : ModuleFile τ)
    (i : Nat) (h : m.files.length ≤ i) :
    ModuleFile.read_tag kraken parseTag m i = .error .panic := by
  unfold ModuleFile.read_tag
  rw [List.get?_eq_none.mpr h]

/-- Witness for C10: reading index 1 of a one-entry module panics. -/
theorem c10_witness :
    witModule.files.length ≤ 1 ∧
      ModuleFile.read_tag witKraken witParse witModule 1 = .error .panic :=
  ⟨by decide, c10_oob_panics witKraken witParse witModule 1 (by decide)⟩

/-- Decoding one ASCII byte. -/
theorem utf8DecodeOne_ascii (b : Nat) (rest : List Nat) (h : b < 0x80) :
    utf8DecodeOne (b :: rest) = some (Char.ofNat b, rest) := by
  unfold utf8DecodeOne
  dsimp only
  rw [if_pos h]

/-- Decoding an all-ASCII byte list. -/
theorem utf8Decode_ascii (l : List Nat) (h : ∀ b ∈ l, b < 0x80) :
    utf8Decode l = some (l.map Char.ofNat) := by
  unfold utf8Decode
  induction l with
  | nil => rfl
  | cons b rest ih =>
    simp only [List.length_cons, utf8DecodeAux,
      utf8DecodeOne_ascii b rest (h b (by simp))]
    rw [show utf8DecodeAux rest.length rest = some (rest.map Char.ofNat) from
      ih (fun x hx => h x (by simp [hx]))]
    simp

/-- Claim C6, counterexample: parsing the on-disk bytes `'m','a','t',' '`
does **not** yield `"mat "` (it yields the reversal `" tam"`). -/
theorem c6_counterexample :
    readTagGroup [0x6D, 0x61, 0x74, 0x20] ≠ Except.ok "mat " := by decide

/-- Claim C6 (amended): the parsed `tag_group` is the reverse of the four
characters stored on disk — so `"mat "` comes from the on-disk bytes
`' ','t','a','m'`, while on-disk `'m','a','t',' '` reads as `" tam"`; in
general, four ASCII bytes parse to their reversed character sequence. -/
theorem c6_reversed_tag_group :
    readTagGroup [0x20, 0x74, 0x61, 0x6D] = Except.ok "mat " ∧
    readTagGroup [0x6D, 0x61, 0x74, 0x20] = Except.ok " tam" ∧
    ∀ b0 b1 b2 b3 : Nat, b0 < 0x80 → b1 < 0x80 → b2 < 0x80 → b3 < 0x80 →
      readTagGroup [b0, b1, b2, b3] =
        .ok (String.mk [Char.ofNat b3, Char.ofNat b2, Char.ofNat b1, Char.ofNat b0]) := by
  refine ⟨by decide, by decide, ?_⟩
  intro b0 b1 b2 b3 h0 h1 h2 h3
  unfold readTagGroup read_fixed_string
  rw [if_neg (by simp only [List.cons.injEq, List.nil_eq]; omega)]
  rw [utf8Decode_ascii [b0, b1, b2, b3] (by intro x hx; simp at hx; omega)]
  simp [Except.map, String.mk]

/-- Witness for C6: the universally quantified reversal discharged on the
bytes `'a','b','c','d'`. -/
theorem c6_witness :
    readTagGroup [97, 98, 99, 100] =
      .ok (String.mk [Char.ofNat 100, Char.ofNat 99, Char.ofNat 98, Char.ofNat 97]) :=
  c6_reversed_tag_group.2.2 97 98 99 100 (by decide) (by decide) (by decide) (by decide)

/-- Claim C2, counterexample: on the scenario-6 fixture (two data references
with `field_block = 0` pointing at datablocks with payloads `[0,1,2,3]` and
`[40,41,42,43]`), both `FieldData` fields of the main struct are filled from
the **first** reference's datablock; the second declared field does not
receive `[40,41,42,43]`. -/
theorem c2_counterexample :
    (TwoFieldDataStruct.load_field_blocks c2Init 0 0 c2Reader c2TagFile).map
        (fun x => (x.1.f1.data, x.1.f2.data)) =
      .ok ([0, 1, 2, 3], [0, 1, 2, 3]) ∧
    ([0, 1, 2, 3] : List Nat) ≠ [40, 41, 42, 43] := by decide

/-- Claim C2 (amended): both `FieldData` fields of the main struct are
materialized from the datablock referenced by the **first** data-reference
whose `field_block` equals the main struct's target index — the generated
code passes the same `parent_index` (0 for the main struct) to every
`FieldData` loader, so the second declared field re-selects the first
reference and the second reference is never consulted. -/
theorem c2_both_fields_first_reference
    (tf : TagFile) (r : Reader) (st : TwoFieldDataStruct) (si : Int)
    (ref : TagDataReference) (db : TagDataBlock)
    (h0 : (tf.data_references.filter fun x => x.field_block = si).get? 0 = some ref)
    (h1 : 0 ≤ ref.target_index)
    (h2 : tf.datablock_definitions.get? ref.target_index.toNat = some db)
    (h3 : db.get_offset tf + st.f1.size ≤ r.data.length)
    (h4 : db.get_offset tf + st.f2.size ≤ r.data.length) :
    (TwoFieldDataStruct.load_field_blocks st si 0 r tf).map
        (fun x => (x.1.f1.data, x.1.f2.data)) =
      .ok ((r.data.drop (db.get_offset tf)).take st.f1.size,
           (r.data.drop (db.get_offset tf)).take st.f2.size) := by
  have hne : ref.target_index ≠ -1 := by omega
  have hnlt : ¬ ref.target_index < 0 := by omega
  unfold TwoFieldDataStruct.load_field_blocks FieldData.load_data
  simp only [h0, hne, ne_eq, not_false_eq_true, if_true, toUsize, hnlt, if_false, h2,
    Bind.bind, Except.bind, Reader.seekStart, Reader.readExact, Except.map, h3, h4]

/-- Witness for C2: the amended property discharged on the scenario-6
fixture, where the first reference's datablock holds bytes `[0,1,2,3]`. -/
theorem c2_witness :
    (c2TagFile.data_references.filter fun x => x.field_block = 0).get? 0 =
      some { field_block := 0, field_offset := 0x294, target_index := 0 } ∧
    (TwoFieldDataStruct.load_field_blocks c2Init 0 0 c2Reader c2TagFile).map
        (fun x => (x.1.f1.data, x.1.f2.data)) =
      .ok ([0, 1, 2, 3], [0, 1, 2, 3]) := by
  refine ⟨by decide, ?_⟩
  have h := c2_both_fields_first_reference c2TagFile c2Reader c2Init 0
    { field_block := 0, field_offset := 0x294, target_index := 0 }
    { entry_size := 16, section_type := .tagData, offset := 0 }
    rfl (by decide) rfl (by decide) (by decide)
  simpa using h



/-- A successful `read_exact` appends exactly one read event. -/
theorem readExact_ok {r : Reader} {n : Nat} {bs : List Nat} {r' : Reader}
    (h : r.readExact n = .ok (bs, r')) :
    r'.events = r.events ++ [Ev.read n] := by
  unfold Reader.readExact at h
  split at h
  · injection h with h
    cases h
    rfl
  · cases h

/-- `entryFinish` never touches the reader and always sets `is_loaded`. -/
theorem entryFinish_ok {τ : Type} {p : List Nat → ModuleVersion → Except Err τ}
    {entry : ModuleFileEntry τ} {v : ModuleVersion} {data : List Nat}
    {r : Reader} {e : ModuleFileEntry τ} {r' : Reader}
    (h : entryFinish p entry v data r = .ok (e, r')) :
    r' = r ∧ e.isLoaded = true := by
  unfold entryFinish at h
  simp only [Bind.bind, Except.bind] at h
  by_cases hraw : entry.flags.testBit 2 = true
  · rw [if_neg (by simp [hraw])] at h
    simp only [pure, Except.pure] at h
    injection h with h
    cases h
    exact ⟨rfl, rfl⟩
  · rw [if_pos (by simp [hraw])] at h
    by_cases hps : entry.tagGroup = "psod"
    · rw [if_pos hps] at h
      cases hp : p data ModuleVersion.season3 with
      | error er => rw [hp] at h; cases h
      | ok tf =>
        rw [hp] at h
        simp only [pure, Except.pure] at h
        injection h with h
        cases h
        exact ⟨rfl, rfl⟩
    · rw [if_neg hps] at h
      cases hp : p data v with
      | error er => rw [hp] at h; cases h
      | ok tf =>
        rw [hp] at h
        simp only [pure, Except.pure] at h
        injection h with h
        cases h
        exact ⟨rfl, rfl⟩


/-- A successful uncompressed-block read only appends events. -/
theorem read_uncompressed_ok {b : ModuleBlockEntry} {data : List Nat}
    {r : Reader} {d : List Nat} {r' : Reader}
    (h : read_uncompressed_block b data r = .ok (d, r')) :
    ∃ t, r'.events = r.events ++ t := by
  unfold read_uncompressed_block at h
  split at h
  · cases hre : r.readExact b.compressedSize with
    | error e => rw [hre] at h; cases h
    | ok p =>
      obtain ⟨buf, r2⟩ := p
      rw [hre] at h
      simp only [Bind.bind, Except.bind] at h
      injection h with h
      cases h
      exact ⟨[Ev.read b.compressedSize], readExact_ok hre⟩
  · cases h

/-- A successful compressed-block read only appends events. -/
theorem read_compressed_ok {k : List Nat → Nat → Except Err (List Nat)}
    {b : ModuleBlockEntry} {data : List Nat} {r : Reader} {d : List Nat}
    {r' : Reader} (h : read_compressed_block k b data r = .ok (d, r')) :
    ∃ t, r'.events = r.events ++ t := by
  unfold read_compressed_block at h
  cases hre : r.readExact b.compressedSize with
  | error e => rw [hre] at h; cases h
  | ok p =>
    obtain ⟨buf, r2⟩ := p
    rw [hre] at h
    simp only [Bind.bind, Except.bind] at h
    cases hk : k buf b.decompressedSize with
    | error e => rw [hk] at h; cases h
    | ok out =>
      rw [hk] at h
      simp only at h
      split at h
      · injection h with h
        cases h
        exact ⟨[Ev.read b.compressedSize], readExact_ok hre⟩
      · cases h

/-- The block loop only appends events. -/
theorem processBlocks_ok {k : List Nat → Nat → Except Err (List Nat)} :
    ∀ {bs : List ModuleBlockEntry} {init : Nat} {data : List Nat} {r : Reader}
      {d : List Nat} {r' : Reader},
      processBlocks k bs init data r = .ok (d, r') →
        ∃ t, r'.events = r.events ++ t := by
  intro bs
  induction bs with
  | nil =>
    intro init data r d r' h
    unfold processBlocks at h
    injection h with h
    cases h
    exact ⟨[], by simp⟩
  | cons b rest ih =>
    intro init data r d r' h
    unfold processBlocks at h
    simp only [Bind.bind, Except.bind] at h
    by_cases hc : b.isCompressed = true
    · rw [if_pos hc] at h
      cases hstep : read_compressed_block k b data (r.seekStart (init + b.compressedOffset)) with
      | error e => rw [hstep] at h; cases h
      | ok p =>
        obtain ⟨data2, r2⟩ := p
        rw [hstep] at h
        simp only at h
        obtain ⟨t2, ht2⟩ := ih h
        obtain ⟨t1, ht1⟩ := read_compressed_ok hstep
        refine ⟨[Ev.seek (init + b.compressedOffset)] ++ t1 ++ t2, ?_⟩
        rw [ht2, ht1]
        simp [Reader.seekStart]
    · rw [if_neg hc] at h
      cases hstep : read_uncompressed_block b data (r.seekStart (init + b.compressedOffset)) with
      | error e => rw [hstep] at h; cases h
      | ok p =>
        obtain ⟨data2, r2⟩ := p
        rw [hstep] at h
        simp only at h
        obtain ⟨t2, ht2⟩ := ih h
        obtain ⟨t1, ht1⟩ := read_uncompressed_ok hstep
        refine ⟨[Ev.seek (init + b.compressedOffset)] ++ t1 ++ t2, ?_⟩
        rw [ht2, ht1]
        simp [Reader.seekStart]

/-- A successful single-block assembly first seeks to the file offset. -/
theorem read_single_ok {k : List Nat → Nat → Except Err (List Nat)} {τ : Type}
    {e : ModuleFileEntry τ} {fo : Nat} {data : List Nat} {r : Reader}
    {d : List Nat} {r' : Reader}
    (h : read_single_block k e fo data r = .ok (d, r')) :
    ∃ t, r'.events = (r.events ++ [Ev.seek fo]) ++ t := by
  unfold read_single_block at h
  simp only [Bind.bind, Except.bind] at h
  cases hre : (r.seekStart fo).readExact e.totalCompressedSize with
  | error er => rw [hre] at h; cases h
  | ok p =>
    obtain ⟨block, r2⟩ := p
    rw [hre] at h
    simp only at h
    have h2 : r2.events = (r.events ++ [Ev.seek fo]) ++ [Ev.read e.totalCompressedSize] := by
      have := readExact_ok hre
      simpa [Reader.seekStart] using this
    split at h
    · split at h
      · injection h with h
        cases h
        exact ⟨[Ev.read e.totalCompressedSize], h2⟩
      · cases h
    · cases hk : k block e.totalUncompressedSize with
      | error er => rw [hk] at h; cases h
      | ok out =>
        rw [hk] at h
        simp only at h
        injection h with h
        cases h
        exact ⟨[Ev.read e.totalCompressedSize], h2⟩

/-- A successful multi-block assembly first seeks to the file offset. -/
theorem read_multiple_ok {k : List Nat → Nat → Except Err (List Nat)} {τ : Type}
    {e : ModuleFileEntry τ} {blocks : List ModuleBlockEntry} {fo : Nat}
    {data : List Nat} {r : Reader} {d : List Nat} {r' : Reader}
    (h : read_multiple_blocks k e blocks fo data r = .ok (d, r')) :
    ∃ t, r'.events = (r.events ++ [Ev.seek fo]) ++ t := by
  unfold read_multiple_blocks at h
  split at h
  · cases h
  · simp only [Bind.bind, Except.bind] at h
    cases hs : sliceExc blocks e.blockIndex.toNat (e.blockIndex.toNat + e.blockCount) with
    | error er => rw [hs] at h; cases h
    | ok bs =>
      rw [hs] at h
      simp only at h
      obtain ⟨t, ht⟩ := processBlocks_ok h
      exact ⟨t, by simpa [Reader.seekStart] using ht⟩

/-- An already-loaded entry returns immediately, untouched. -/
theorem entry_read_tag_loaded {τ : Type} {k : List Nat → Nat → Except Err (List Nat)}
    {p : List Nat → ModuleVersion → Except Err τ} {entry : ModuleFileEntry τ}
    {r : Reader} {base : Nat} {blocks : List ModuleBlockEntry}
    {v : ModuleVersion} {uh : Bool} (hl : entry.isLoaded = true) :
    ModuleFileEntry.read_tag k p entry r base blocks v uh = .ok (entry, r) := by
  unfold ModuleFileEntry.read_tag
  rw [hl]
  simp

/-- A successful load rewinds and then seeks to the computed source-relative
file offset before anything else. -/
theorem entry_read_tag_events {τ : Type} {k : List Nat → Nat → Except Err (List Nat)}
    {p : List Nat → ModuleVersion → Except Err τ} {entry : ModuleFileEntry τ}
    {r : Reader} {base : Nat} {blocks : List ModuleBlockEntry}
    {v : ModuleVersion} {uh : Bool} {e : ModuleFileEntry τ} {r' : Reader}
    (hnl : entry.isLoaded = false)
    (h : ModuleFileEntry.read_tag k p entry r base blocks v uh = .ok (e, r')) :
    ∃ t, r'.events =
      (r.events ++ [Ev.seek 0, Ev.seek (entryFileOffset base entry.dataOffset uh)]) ++ t := by
  unfold ModuleFileEntry.read_tag at h
  rw [hnl] at h
  simp only [Bool.false_eq_true, if_false, Bind.bind, Except.bind] at h
  by_cases hbc : entry.blockCount ≠ 0
  · rw [if_pos hbc] at h
    cases hasm : read_multiple_blocks k entry blocks
        (entryFileOffset base entry.dataOffset uh)
        (List.replicate entry.totalUncompressedSize 0) (r.seekStart 0) with
    | error er => rw [hasm] at h; cases h
    | ok q =>
      obtain ⟨data, r2⟩ := q
      rw [hasm] at h
      simp only at h
      obtain ⟨t, ht⟩ := read_multiple_ok hasm
      obtain ⟨hrr, -⟩ := entryFinish_ok h
      refine ⟨t, ?_⟩
      rw [hrr]
      simpa [Reader.seekStart] using ht
  · rw [if_neg hbc] at h
    cases hasm : read_single_block k entry
        (entryFileOffset base entry.dataOffset uh)
        (List.replicate entry.totalUncompressedSize 0) (r.seekStart 0) with
    | error er => rw [hasm] at h; cases h
    | ok q =>
      obtain ⟨data, r2⟩ := q
      rw [hasm] at h
      simp only at h
      obtain ⟨t, ht⟩ := read_single_ok hasm
      obtain ⟨hrr, -⟩ := entryFinish_ok h
      refine ⟨t, ?_⟩
      rw [hrr]
      simpa [Reader.seekStart] using ht

/-- A successful entry-level `read_tag` always returns a loaded entry. -/
theorem entry_read_tag_isLoaded {τ : Type} {k : List Nat → Nat → Except Err (List Nat)}
    {p : List Nat → ModuleVersion → Except Err τ} {entry : ModuleFileEntry τ}
    {r : Reader} {base : Nat} {blocks : List ModuleBlockEntry}
    {v : ModuleVersion} {uh : Bool} {e : ModuleFileEntry τ} {r' : Reader}
    (h : ModuleFileEntry.read_tag k p entry r base blocks v uh = .ok (e, r')) :
    e.isLoaded = true := by
  unfold ModuleFileEntry.read_tag at h
  by_cases hl : entry.isLoaded = true
  · rw [hl] at h
    simp only [if_true] at h
    injection h with h
    cases h
    exact hl
  · rw [Bool.not_eq_true] at hl
    rw [hl] at h
    simp only [Bool.false_eq_true, if_false, Bind.bind, Except.bind] at h
    by_cases hbc : entry.blockCount ≠ 0
    · rw [if_pos hbc] at h
      cases hasm : read_multiple_blocks k entry blocks
          (entryFileOffset base entry.dataOffset uh)
          (List.replicate entry.totalUncompressedSize 0) (r.seekStart 0) with
      | error er => rw [hasm] at h; cases h
      | ok q =>
        rw [hasm] at h
        simp only at h
        exact (entryFinish_ok h).2
    · rw [if_neg hbc] at h
      cases hasm : read_single_block k entry
          (entryFileOffset base entry.dataOffset uh)
          (List.replicate entry.totalUncompressedSize 0) (r.seekStart 0) with
      | error er => rw [hasm] at h; cases h
      | ok q =>
        rw [hasm] at h
        simp only at h
        exact (entryFinish_ok h).2


/-- Writing back the element already stored leaves a list unchanged. -/
theorem list_set_same {α : Type} :
    ∀ (l : List α) (i : Nat) (x : α), l.get? i = some x → l.set i x = l := by
  intro l
  induction l with
  | nil => intro i x h; cases h
  | cons a t ih =>
    intro i x h
    cases i with
    | zero =>
      injection h with h
      rw [h]
      rfl
    | succ j =>
      simp only [List.set]
      rw [ih j x h]

/-- Taking the length of a prefix recovers the prefix. -/
theorem take_pref {α : Type} (A B t : List α) :
    ((A ++ B) ++ t).take (A.length + B.length) = A ++ B := by
  have h := List.take_left (A ++ B) t
  rwa [List.length_append] at h

/-- The 64-bit modulus as a literal. -/
theorem U64_eq : U64 = 18446744073709551616 := by norm_num [U64]

/-- Wrapping addition below the modulus is plain addition. -/
theorem u64add_eq (a b : Nat) (h : a + b < U64) : u64add a b = a + b :=
  Nat.mod_eq_of_lt h

/-- Wrapping subtraction without underflow is plain subtraction. -/
theorem u64sub_eq (a b : Nat) (hb : b ≤ a) (ha : a < U64) : u64sub a b = a - b := by
  unfold u64sub
  rw [U64_eq] at ha ⊢
  omega

/-- Re-storing the same HD1 handle and file table is the identity. -/
theorem module_eta_hd1 {τ : Type} (m : ModuleFile τ) (r : Reader)
    (fs : List (ModuleFileEntry τ)) (hr : m.hd1File = some r)
    (hf : fs = m.files) :
    ({ m with hd1File := some r, files := fs } : ModuleFile τ) = m := by
  cases m
  simp_all

/-- Re-storing the same primary handle and file table is the identity. -/
theorem module_eta_fh {τ : Type} (m : ModuleFile τ) (r : Reader)
    (fs : List (ModuleFileEntry τ)) (hr : m.fileHandle = some r)
    (hf : fs = m.files) :
    ({ m with fileHandle := some r, files := fs } : ModuleFile τ) = m := by
  cases m
  simp_all

/-- Claim C9: once an entry has been materialized (`is_loaded` set, which a
successful load always does — `entry_read_tag_isLoaded`), every further
`ModuleFile::read_tag` on that index returns `Ok(Some(entry))` and leaves the
module completely unchanged: the entry keeps its `data_stream`, `tag_info`
and every other field, and neither archive reader records any seek or read
event. -/
theorem c9_loaded_idempotent {τ : Type} (kraken : List Nat → Nat → Except Err (List Nat))
    (parseTag : List Nat → ModuleVersion → Except Err τ) (m : ModuleFile τ)
    (i : Nat) (entry : ModuleFileEntry τ)
    (hget : m.files.get? i = some entry)
    (hl : entry.isLoaded = true)
    (hdbg : entry.dataOffsetFlags.testBit 1 = false)
    (hhd1 : entry.dataOffsetFlags.testBit 0 = true → ∃ hr, m.hd1File = some hr)
    (hfh : ∃ fh, m.fileHandle = some fh) :
    ModuleFile.read_tag kraken parseTag m i = .ok (some entry, m) := by
  unfold ModuleFile.read_tag
  rw [hget]
  simp only [hdbg, Bool.false_eq_true, if_false]
  by_cases h0 : entry.dataOffsetFlags.testBit 0 = true
  · obtain ⟨hr, hh⟩ := hhd1 h0
    simp only [h0, if_true, hh]
    rw [entry_read_tag_loaded hl]
    simp only [Bind.bind, Except.bind]
    rw [list_set_same m.files i entry hget, module_eta_hd1 m hr m.files hh rfl]
  · obtain ⟨fh, hfh⟩ := hfh
    simp only [h0, Bool.false_eq_true, if_false, hfh]
    rw [entry_read_tag_loaded hl]
    simp only [Bind.bind, Except.bind]
    rw [list_set_same m.files i entry hget, module_eta_fh m fh m.files hfh rfl]


/-- Claim C7: on an opened module (primary handle present),
`read_tag` returns `Ok(None)` exactly when the entry's data-offset flags
contain `DEBUG` (bit 1), or they contain `USE_HD1` (bit 0) and no HD1
side-archive was opened; in every other case it either returns the loaded
entry (`Ok(Some)` with `is_loaded` set) or propagates an error. -/
theorem c7_absent_cases {τ : Type} (kraken : List Nat → Nat → Except Err (List Nat))
    (parseTag : List Nat → ModuleVersion → Except Err τ) (m : ModuleFile τ)
    (i : Nat) (entry : ModuleFileEntry τ) (fh : Reader)
    (hget : m.files.get? i = some entry)
    (hfh : m.fileHandle = some fh) :
    ((∃ m', ModuleFile.read_tag kraken parseTag m i = .ok (none, m')) ↔
      (entry.dataOffsetFlags.testBit 1 = true ∨
        (entry.dataOffsetFlags.testBit 0 = true ∧ m.hd1File = none))) ∧
    (entry.dataOffsetFlags.testBit 1 = false →
      (entry.dataOffsetFlags.testBit 0 = true → m.hd1File ≠ none) →
      (∃ e m', ModuleFile.read_tag kraken parseTag m i = .ok (some e, m') ∧
          e.isLoaded = true) ∨
        (∃ er, ModuleFile.read_tag kraken parseTag m i = .error er)) := by
  by_cases hb1 : entry.dataOffsetFlags.testBit 1 = true
  · have hEq : ModuleFile.read_tag kraken parseTag m i = .ok (none, m) := by
      unfold ModuleFile.read_tag
      rw [hget]
      simp only [hb1, if_true]
    refine ⟨⟨fun _ => Or.inl hb1, fun _ => ⟨m, hEq⟩⟩, ?_⟩
    intro hdbg _
    rw [hdbg] at hb1
    cases hb1
  · by_cases hb0 : entry.dataOffsetFlags.testBit 0 = true
    · cases hh : m.hd1File with
      | none =>
        have hEq : ModuleFile.read_tag kraken parseTag m i = .ok (none, m) := by
          unfold ModuleFile.read_tag
          rw [hget]
          simp only [hb1, Bool.false_eq_true, if_false, hb0, if_true, hh]
        refine ⟨⟨fun _ => Or.inr ⟨hb0, rfl⟩, fun _ => ⟨m, hEq⟩⟩, ?_⟩
        intro _ hpres
        exact absurd rfl (hpres hb0)
      | some hr =>
        cases he : ModuleFileEntry.read_tag kraken parseTag entry hr
            (if m.header.version.leCampaign then
              u64add m.header.hd1Delta m.header.hd1Delta
             else m.header.hd1Delta) m.blocks m.header.version true with
        | error er =>
          have hEq : ModuleFile.read_tag kraken parseTag m i = .error er := by
            unfold ModuleFile.read_tag
            rw [hget]
            simp only [hb1, Bool.false_eq_true, if_false, hb0, if_true, hh,
              Bind.bind, Except.bind, he]
          refine ⟨⟨?_, ?_⟩, ?_⟩
          · rintro ⟨m', hm'⟩
            rw [hEq] at hm'
            cases hm'
          · rintro (h | ⟨h0, hnone⟩)
            · exact absurd h hb1
            · exact Option.noConfusion hnone
          · intro _ _
            exact Or.inr ⟨er, hEq⟩
        | ok q =>
          obtain ⟨e, r2⟩ := q
          have hEq : ModuleFile.read_tag kraken parseTag m i =
              .ok (some e, { m with hd1File := some r2, files := m.files.set i e }) := by
            unfold ModuleFile.read_tag
            rw [hget]
            simp only [hb1, Bool.false_eq_true, if_false, hb0, if_true, hh,
              Bind.bind, Except.bind, he]
          refine ⟨⟨?_, ?_⟩, ?_⟩
          · rintro ⟨m', hm'⟩
            rw [hEq] at hm'
            injection hm' with hm'
            injection hm' with h1 h2
            cases h1
          · rintro (h | ⟨h0, hnone⟩)
            · exact absurd h hb1
            · exact Option.noConfusion hnone
          · intro _ _
            exact Or.inl ⟨e, _, hEq, entry_read_tag_isLoaded he⟩
    · cases he : ModuleFileEntry.read_tag kraken parseTag entry fh
          m.fileDataOffset m.blocks m.header.version false with
      | error er =>
        have hEq : ModuleFile.read_tag kraken parseTag m i = .error er := by
          unfold ModuleFile.read_tag
          rw [hget]
          simp only [hb1, Bool.false_eq_true, if_false, hb0, hfh,
            Bind.bind, Except.bind, he]
        refine ⟨⟨?_, ?_⟩, ?_⟩
        · rintro ⟨m', hm'⟩
          rw [hEq] at hm'
          cases hm'
        · rintro (h | ⟨h0, _⟩)
          · exact absurd h hb1
          · exact absurd h0 hb0
        · intro _ _
          exact Or.inr ⟨er, hEq⟩
      | ok q =>
        obtain ⟨e, r2⟩ := q
        have hEq : ModuleFile.read_tag kraken parseTag m i =
            .ok (some e, { m with fileHandle := some r2, files := m.files.set i e }) := by
          unfold ModuleFile.read_tag
          rw [hget]
          simp only [hb1, Bool.false_eq_true, if_false, hb0, hfh,
            Bind.bind, Except.bind, he]
        refine ⟨⟨?_, ?_⟩, ?_⟩
        · rintro ⟨m', hm'⟩
          rw [hEq] at hm'
          injection hm' with hm'
          injection hm' with h1 h2
          cases h1
        · rintro (h | ⟨h0, _⟩)
          · exact absurd h hb1
          · exact absurd h0 hb0
        · intro _ _
          exact Or.inl ⟨e, _, hEq, entry_read_tag_isLoaded he⟩


/-- Claim C3: for an entry loaded through `ModuleFile::read_tag`, the payload
read starts (after the rewind) at source-relative offset
`data_offset - hd1_delta` on the HD1 archive for version 53, at
`data_offset - 2 * hd1_delta` for versions ≤ 52 (the delta is added to the
base a second time before dispatch), and at
`file_data_offset + data_offset` on the primary archive.  The hypotheses
rule out `u64` wrap-around, so the wrapping operations coincide with plain
arithmetic. -/
theorem c3_payload_offsets {τ : Type} (kraken : List Nat → Nat → Except Err (List Nat))
    (parseTag : List Nat → ModuleVersion → Except Err τ) (m : ModuleFile τ)
    (i : Nat) (entry : ModuleFileEntry τ)
    (hget : m.files.get? i = some entry)
    (hnl : entry.isLoaded = false)
    (hdbg : entry.dataOffsetFlags.testBit 1 = false)
    (hdo : entry.dataOffset < U64)
    (hdelta : 2 * m.header.hd1Delta ≤ entry.dataOffset)
    (hsum : m.fileDataOffset + entry.dataOffset < U64) :
    (∀ hr : Reader, entry.dataOffsetFlags.testBit 0 = true → m.hd1File = some hr →
      ∀ res m', ModuleFile.read_tag kraken parseTag m i = .ok (res, m') →
        (m'.hd1File.map fun r2 => r2.events.take (hr.events.length + 2)) =
          some (hr.events ++ [Ev.seek 0, Ev.seek (entry.dataOffset -
            (if m.header.version.leCampaign then 2 * m.header.hd1Delta
             else m.header.hd1Delta))])) ∧
    (∀ fh : Reader, entry.dataOffsetFlags.testBit 0 = false → m.fileHandle = some fh →
      ∀ res m', ModuleFile.read_tag kraken parseTag m i = .ok (res, m') →
        (m'.fileHandle.map fun r2 => r2.events.take (fh.events.length + 2)) =
          some (fh.events ++ [Ev.seek 0, Ev.seek (m.fileDataOffset + entry.dataOffset)])) := by
  have hdlt : m.header.hd1Delta < U64 := by
    rw [U64_eq] at hdo ⊢
    omega
  have h2dlt : 2 * m.header.hd1Delta < U64 := lt_of_le_of_lt hdelta hdo
  constructor
  · intro hr hb0 hh res m' h
    cases he : ModuleFileEntry.read_tag kraken parseTag entry hr
        (if m.header.version.leCampaign then
          u64add m.header.hd1Delta m.header.hd1Delta
         else m.header.hd1Delta) m.blocks m.header.version true with
    | error er =>
      have hEq : ModuleFile.read_tag kraken parseTag m i = .error er := by
        unfold ModuleFile.read_tag
        rw [hget]
        simp only [hdbg, Bool.false_eq_true, if_false, hb0, if_true, hh,
          Bind.bind, Except.bind, he]
      rw [hEq] at h
      cases h
    | ok q =>
      obtain ⟨e, r2⟩ := q
      have hEq : ModuleFile.read_tag kraken parseTag m i =
          .ok (some e, { m with hd1File := some r2, files := m.files.set i e }) := by
        unfold ModuleFile.read_tag
        rw [hget]
        simp only [hdbg, Bool.false_eq_true, if_false, hb0, if_true, hh,
          Bind.bind, Except.bind, he]
      rw [hEq] at h
      injection h with h
      injection h with h1 h2
      rw [← h2]
      simp only [Option.map]
      obtain ⟨t, ht⟩ := entry_read_tag_events hnl he
      have hbase : entryFileOffset
          (if m.header.version.leCampaign then
            u64add m.header.hd1Delta m.header.hd1Delta
           else m.header.hd1Delta) entry.dataOffset true =
          entry.dataOffset -
            (if m.header.version.leCampaign then 2 * m.header.hd1Delta
             else m.header.hd1Delta) := by
        unfold entryFileOffset
        by_cases hv : m.header.version.leCampaign = true
        · rw [if_pos hv, if_pos hv, if_pos rfl,
            u64add_eq _ _ (by rw [U64_eq] at h2dlt ⊢; omega)]
          rw [u64sub_eq _ _ (by omega) hdo]
          omega
        · rw [if_neg hv, if_neg hv, if_pos rfl,
            u64sub_eq _ _ (by omega) hdo]
      rw [hbase] at ht
      rw [ht]
      congr 1
      have := take_pref hr.events [Ev.seek 0, Ev.seek (entry.dataOffset -
        (if m.header.version.leCampaign then 2 * m.header.hd1Delta
         else m.header.hd1Delta))] t
      simpa using this
  · intro fh hb0 hfh res m' h
    cases he : ModuleFileEntry.read_tag kraken parseTag entry fh
        m.fileDataOffset m.blocks m.header.version false with
    | error er =>
      have hEq : ModuleFile.read_tag kraken parseTag m i = .error er := by
        unfold ModuleFile.read_tag
        rw [hget]
        simp only [hdbg, Bool.false_eq_true, if_false, hb0, hfh,
          Bind.bind, Except.bind, he]
      rw [hEq] at h
      cases h
    | ok q =>
      obtain ⟨e, r2⟩ := q
      have hEq : ModuleFile.read_tag kraken parseTag m i =
          .ok (some e, { m with fileHandle := some r2, files := m.files.set i e }) := by
        unfold ModuleFile.read_tag
        rw [hget]
        simp only [hdbg, Bool.false_eq_true, if_false, hb0, hfh,
          Bind.bind, Except.bind, he]
      rw [hEq] at h
      injection h with h
      injection h with h1 h2
      rw [← h2]
      simp only [Option.map]
      obtain ⟨t, ht⟩ := entry_read_tag_events hnl he
      have hbase : entryFileOffset m.fileDataOffset entry.dataOffset false =
          m.fileDataOffset + entry.dataOffset := by
        unfold entryFileOffset
        rw [if_neg (by simp), u64add_eq _ _ hsum]
      rw [hbase] at ht
      rw [ht]
      congr 1
      have := take_pref fh.events
        [Ev.seek 0, Ev.seek (m.fileDataOffset + entry.dataOffset)] t
      simpa using this


/-- The element-reading loop only appends events (for appending ops). -/
theorem readElems_ok {T : Type} {ops : TagStructureOps T}
    (hm : OpsAppendEvents ops) :
    ∀ {n : Nat} {r : Reader} {es : List T} {r' : Reader},
      readElems ops n r = .ok (es, r') → ∃ t, r'.events = r.events ++ t := by
  intro n
  induction n with
  | zero =>
    intro r es r' h
    unfold readElems at h
    injection h with h
    cases h
    exact ⟨[], by simp⟩
  | succ k ih =>
    intro r es r' h
    unfold readElems at h
    simp only [Bind.bind, Except.bind] at h
    cases h1 : ops.read ops.default r with
    | error er => rw [h1] at h; cases h
    | ok p =>
      obtain ⟨e, r2⟩ := p
      rw [h1] at h
      simp only at h
      cases h2 : readElems ops k r2 with
      | error er => rw [h2] at h; cases h
      | ok q =>
        obtain ⟨es2, r3⟩ := q
        rw [h2] at h
        simp only at h
        injection h with h
        cases h
        obtain ⟨t1, ht1⟩ := hm.1 _ _ _ _ h1
        obtain ⟨t2, ht2⟩ := ih h2
        exact ⟨t1 ++ t2, by rw [ht2, ht1, List.append_assoc]⟩

/-- The children-loading loop only appends events (for appending ops). -/
theorem loadChildren_ok {T : Type} {ops : TagStructureOps T}
    (hm : OpsAppendEvents ops) {target : Int} {elemSize : Nat} {tf : TagFile} :
    ∀ {es : List T} {idx : Nat} {r : Reader} {es' : List T} {r' : Reader},
      loadChildren ops target elemSize tf idx es r = .ok (es', r') →
        ∃ t, r'.events = r.events ++ t := by
  intro es
  induction es with
  | nil =>
    intro idx r es' r' h
    unfold loadChildren at h
    injection h with h
    cases h
    exact ⟨[], by simp⟩
  | cons e rest ih =>
    intro idx r es' r' h
    unfold loadChildren at h
    simp only [Bind.bind, Except.bind] at h
    cases h1 : ops.load_field_blocks e target idx (elemSize * idx) r tf with
    | error er => rw [h1] at h; cases h
    | ok p =>
      obtain ⟨e2, r2⟩ := p
      rw [h1] at h
      simp only at h
      cases h2 : loadChildren ops target elemSize tf (idx + 1) rest r2 with
      | error er => rw [h2] at h; cases h
      | ok q =>
        obtain ⟨es2, r3⟩ := q
        rw [h2] at h
        simp only at h
        injection h with h
        cases h
        obtain ⟨t1, ht1⟩ := hm.2 _ _ _ _ _ _ _ _ h1
        obtain ⟨t2, ht2⟩ := ih h2
        exact ⟨t1 ++ t2, by rw [ht2, ht1, List.append_assoc]⟩

/-- Claim C4: when `load_blocks` resolves a target datablock `B`, the
elements are read starting exactly at `B.offset` plus — only when
`B.section_type` is `ResourceData` — the sum of `entry_size` over the
datablocks whose `section_type` is `TagData` (so `Header` datablocks never
contribute): the first event recorded on the reader is a seek to that
offset.  The hypotheses keep the `u32` sum and the `u64` addition below
their moduli, so the wrapping operations of the source coincide with plain
arithmetic. -/
theorem c4_resource_data_offset {T : Type} (ops : TagStructureOps T) (hm : OpsAppendEvents ops)
    (self : FieldBlockState T) (cb : Int) (co : Nat) (r : Reader)
    (tf : TagFile) (s : TagStruct) (b : TagDataBlock)
    (hsz : self.size ≠ 0)
    (hfind : tf.struct_definitions.find? (fun s =>
        s.field_block = cb ∧ s.field_offset = co ∧ s.target_index ≠ -1) = some s)
    (ht : 0 ≤ s.target_index)
    (hb : tf.datablock_definitions.get? s.target_index.toNat = some b)
    (hs32 : ((tf.datablock_definitions.filter fun x =>
        x.section_type = .tagData).map fun x => x.entry_size).sum < U32)
    (hoff64 : b.offset + ((tf.datablock_definitions.filter fun x =>
        x.section_type = .tagData).map fun x => x.entry_size).sum < U64) :
    ∀ res r', FieldBlock.load_blocks ops self cb co r tf = .ok (res, r') →
      r'.events.take (r.events.length + 1) =
        r.events ++ [Ev.seek (if b.section_type = .resourceData then
          b.offset + ((tf.datablock_definitions.filter fun x =>
            x.section_type = .tagData).map fun x => x.entry_size).sum
        else b.offset)] := by
  intro res r' h
  unfold FieldBlock.load_blocks at h
  rw [if_neg hsz] at h
  simp only [hfind] at h
  rw [if_neg (show ¬ s.target_index < 0 by omega)] at h
  simp only [hb, Bind.bind, Except.bind] at h
  have hwrap : (if b.section_type = .resourceData then
      u64add b.offset (((tf.datablock_definitions.filter fun x =>
        x.section_type = .tagData).map fun x => x.entry_size).sum % U32)
    else b.offset) = (if b.section_type = .resourceData then
      b.offset + ((tf.datablock_definitions.filter fun x =>
        x.section_type = .tagData).map fun x => x.entry_size).sum
    else b.offset) := by
    rw [Nat.mod_eq_of_lt hs32]
    by_cases hsec : b.section_type = .resourceData
    · rw [if_pos hsec, if_pos hsec, u64add_eq _ _ hoff64]
    · rw [if_neg hsec, if_neg hsec]
  rw [hwrap] at h
  set off := (if b.section_type = .resourceData then
    b.offset + ((tf.datablock_definitions.filter fun x =>
      x.section_type = .tagData).map fun x => x.entry_size).sum
  else b.offset) with hoff
  cases h1 : readElems ops self.size (r.seekStart off) with
  | error er => rw [h1] at h; cases h
  | ok p =>
    obtain ⟨elems, r2⟩ := p
    rw [h1] at h
    simp only at h
    cases h2 : loadChildren ops s.target_index ops.size tf 0 (self.elements ++ elems) r2 with
    | error er => rw [h2] at h; cases h
    | ok q =>
      obtain ⟨elems2, r3⟩ := q
      rw [h2] at h
      simp only at h
      injection h with h
      injection h with ha hb2
      rw [← hb2]
      obtain ⟨t1, ht1⟩ := readElems_ok hm h1
      obtain ⟨t2, ht2⟩ := loadChildren_ok hm h2
      rw [ht2, ht1]
      simp only [Reader.seekStart]
      rw [List.append_assoc]
      have := take_pref r.events [Ev.seek off] (t1 ++ t2)
      simpa using this



/-- `unitOps` only ever returns the reader untouched, hence appends. -/
theorem unitOps_append : OpsAppendEvents unitOps := by
  constructor
  · intro x r y r' h
    simp only [unitOps] at h
    injection h with h
    cases h
    exact ⟨[], by simp⟩
  · intro x a b c r tf y r' h
    simp only [unitOps] at h
    injection h with h
    cases h
    exact ⟨[], by simp⟩

/-- Witness for C9: re-reading the already-loaded entry of
`witModuleLoaded` returns it unchanged with no reader activity. -/
theorem c9_witness :
    ModuleFile.read_tag witKraken witParse witModuleLoaded 0 =
      .ok (some witEntryLoaded, witModuleLoaded) :=
  c9_loaded_idempotent witKraken witParse witModuleLoaded 0 witEntryLoaded rfl rfl
    (by decide) (fun _ => ⟨witReader, rfl⟩) ⟨witReader, rfl⟩

/-- Witness for C7: the absent-not-error characterization discharged on the
concrete one-entry module `witModule`. -/
theorem c7_witness :
    witModule.files.get? 0 = some witEntry ∧
    witModule.fileHandle = some witReader ∧
    ((∃ m', ModuleFile.read_tag witKraken witParse witModule 0 = .ok (none, m')) ↔
      (witEntry.dataOffsetFlags.testBit 1 = true ∨
        (witEntry.dataOffsetFlags.testBit 0 = true ∧ witModule.hd1File = none))) :=
  ⟨rfl, rfl, (c7_absent_cases witKraken witParse witModule 0 witEntry witReader rfl rfl).1⟩

/-- Witness for C3: loading the `USE_HD1` entry of `witModuleHd1`
(`data_offset = 8`, `hd1_delta = 2`, version 53) seeks to offset 6 on the
HD1 reader right after the rewind. -/
theorem c3_witness :
    c3OutModule.hd1File.map (fun r2 => r2.events.take 2) =
      some [Ev.seek 0, Ev.seek 6] := by
  have h := (c3_payload_offsets witKraken witParse witModuleHd1 0 witEntryHd1
    rfl rfl (by decide) (by decide) (by decide) (by decide)).1 witReader
    (by decide) rfl (some c3OutEntry) c3OutModule (by decide)
  simpa [witReader, witModuleHd1, witEntryHd1, ModuleVersion.leCampaign,
    ModuleVersion.toVal] using h

/-- Witness for C4: on the fixture whose target datablock lies in
`ResourceData` at offset 8 with a 16-byte `TagData` datablock present, the
loader's first event is a seek to 24. -/
theorem c4_witness :
    c4OutReader.events.take 1 = emptyReader.events ++ [Ev.seek 24] := by
  have h := c4_resource_data_offset unitOps unitOps_append c4State 0 44 emptyReader
    c4TagFile
    { struct_type := .tagBlock, target_index := 0, field_block := 0, field_offset := 44 }
    { entry_size := 0, section_type := .resourceData, offset := 8 }
    (by decide) (by decide) (by decide) (by decide) (by decide) (by decide)
    c4OutState c4OutReader (by decide)
  simpa [emptyReader, c4TagFile] using h

end InfiniteRs
